import Mathlib

/-!
Verification of the LS-8 virtual CPU (`src/ls8/cpu.py`).

The machine is embedded shallowly: memory is a total function on the 256
addresses, the register file a total function on the 8 register slots, and
every value is an unbounded integer, exactly as in the source, which never
masks arithmetic results to 8 bits.  Python exceptions (IndexError on list
access, KeyError on a missing branchtable key, TypeError on an arity
mismatch, ZeroDivisionError, and the two hand-raised Exceptions) are made
explicit through an `Except` monad.  Python list indexing accepts negative
indices down to minus the length, wrapping from the end; `pyIdx` reproduces
that.  The constructor fields `ir`, `mar`, `mdr` and `fl` of the source are
set to 0 once and never read or written again by the run loop or any
handler, so they are omitted from the state.  The `print` performed by the
PRN handler is modelled as appending to an `output` trace.

`CPU.alu` is embedded twice, reflecting its two roles: `alu` is the full
method over a rational-valued register file (its "DIV" branch performs
Python real division, modelled by exact division; the branch structure,
index handling and raising behaviour are those of the source), while the
machine semantics, whose instruction table only ever invokes the ALU with
"ADD" and "MUL" (closed over the integers), uses the integer forms
`aluAddInt`/`aluMulInt`; lemmas `alu_add_int_agree` and `alu_mul_int_agree`
prove the two embeddings agree on those operations.
-/

set_option maxRecDepth 100000

namespace LS8

/-- Python exceptions that the interpreter can raise. -/
inductive Err : Type
  | indexError : Err
  | keyError : Int → Err
  | typeError : Err
  | zeroDivisionError : Err
  | unsupportedALUOperation : Err
  | unsupportedIValue : Err
  deriving DecidableEq, Repr

/-- Opcode constant `OP_LDI = 0b10000010`. -/
def OP_LDI : Int := 0b10000010

/-- Opcode constant `OP_PRN = 0b01000111`. -/
def OP_PRN : Int := 0b01000111

/-- Opcode constant `OP_ADD = 0b10100000`. -/
def OP_ADD : Int := 0b10100000

/-- Opcode constant `OP_MUL = 0b10100010`. -/
def OP_MUL : Int := 0b10100010

/-- Opcode constant `OP_HLT = 0b00000001`. -/
def OP_HLT : Int := 0b00000001

/-- Opcode constant `OP_PUSH = 0b01000101`. -/
def OP_PUSH : Int := 0b01000101

/-- Opcode constant `OP_POP = 0b01000110`. -/
def OP_POP : Int := 0b01000110

/-- Opcode constant `OP_CALL = 0b01010000`. -/
def OP_CALL : Int := 0b01010000

/-- Opcode constant `OP_RET = 0b00010001`. -/
def OP_RET : Int := 0b00010001

/-- Stack pointer register index constant `SP = 7`. -/
def SP : Fin 8 := 7

/-- Python list indexing for a list of length `n`: index `i` with
`0 ≤ i < n` is used as is, `-n ≤ i < 0` wraps from the end, and anything
else raises IndexError. -/
def pyIdx (n : Nat) (i : Int) : Except Err (Fin n) :=
  if h : 0 ≤ i ∧ i < (n : Int) then .ok ⟨i.toNat, by omega⟩
  else if h2 : -(n : Int) ≤ i ∧ i < 0 then .ok ⟨(i + n).toNat, by omega⟩
  else .error .indexError

/-- Pointwise update of a total function, modelling `xs[i] = v`. -/
def updF {n : Nat} {α : Type} (f : Fin n → α) (i : Fin n) (v : α) : Fin n → α :=
  fun j => if j = i then v else f j

/-- The machine state: `self.ram` (256 cells), `self.reg` (8 slots, slot 7
the stack pointer), `self.pc`, `self.running`, plus the trace of values
printed by PRN. -/
structure CPUState : Type where
  ram : Fin 256 → Int
  reg : Fin 8 → Int
  pc : Int
  running : Bool
  output : List Int

/-- `CPU.ram_read(mar)`: `return self.ram[mar]`. -/
def ram_read (ram : Fin 256 → Int) (mar : Int) : Except Err Int := do
  let j ← pyIdx 256 mar
  .ok (ram j)

/-- `CPU.incrementPC(i)`: the guard `i >= 1 & i <= 3` parses, by Python
precedence (`&` binds tighter than comparisons, which chain), as
`i >= (1 & i) and (1 & i) <= 3`; when it holds the PC grows by `i`,
otherwise `Exception("Unsupported i value")` is raised.  Python `&` on
arbitrary integers is two's-complement bitwise and, i.e. `Int.land`. -/
def incrementPC (i : Int) (pc : Int) : Except Err Int :=
  if Int.land 1 i ≤ i ∧ Int.land 1 i ≤ 3 then .ok (pc + i)
  else .error .unsupportedIValue

/-- `CPU.ldi(operand_a, operand_b)`: `self.reg[operand_a] = operand_b`,
then `incrementPC(3)`. -/
def ldi (operand_a operand_b : Int) (s : CPUState) : Except Err CPUState := do
  let i ← pyIdx 8 operand_a
  let s1 : CPUState := { s with reg := updF s.reg i operand_b }
  let pc2 ← incrementPC 3 s1.pc
  .ok { s1 with pc := pc2 }

/-- `CPU.prn(operand_a)`: `print(self.reg[operand_a])`, then
`incrementPC(2)`. -/
def prn (operand_a : Int) (s : CPUState) : Except Err CPUState := do
  let i ← pyIdx 8 operand_a
  let s1 : CPUState := { s with output := s.output ++ [s.reg i] }
  let pc2 ← incrementPC 2 s1.pc
  .ok { s1 with pc := pc2 }

/-- The "ADD" branch of `CPU.alu` on an integer register file:
`self.reg[reg_a] += self.reg[reg_b]`. -/
def aluAddInt (reg_a reg_b : Int) (reg : Fin 8 → Int) : Except Err (Fin 8 → Int) := do
  let ia ← pyIdx 8 reg_a
  let ib ← pyIdx 8 reg_b
  .ok (updF reg ia (reg ia + reg ib))

/-- The "MUL" branch of `CPU.alu` on an integer register file:
`self.reg[reg_a] *= self.reg[reg_b]`. -/
def aluMulInt (reg_a reg_b : Int) (reg : Fin 8 → Int) : Except Err (Fin 8 → Int) := do
  let ia ← pyIdx 8 reg_a
  let ib ← pyIdx 8 reg_b
  .ok (updF reg ia (reg ia * reg ib))

/-- `CPU.add(operand_a, operand_b)`: `self.alu("ADD", operand_a, operand_b)`
then `incrementPC(3)`; the ALU call is taken in its integer form
`aluAddInt` (see `alu_add_int_agree`). -/
def add (operand_a operand_b : Int) (s : CPUState) : Except Err CPUState := do
  let reg2 ← aluAddInt operand_a operand_b s.reg
  let s1 : CPUState := { s with reg := reg2 }
  let pc2 ← incrementPC 3 s1.pc
  .ok { s1 with pc := pc2 }

/-- `CPU.mul(operand_a, operand_b)`: `self.alu("MUL", operand_a, operand_b)`
then `incrementPC(3)`; the ALU call is taken in its integer form
`aluMulInt` (see `alu_mul_int_agree`). -/
def mul (operand_a operand_b : Int) (s : CPUState) : Except Err CPUState := do
  let reg2 ← aluMulInt operand_a operand_b s.reg
  let s1 : CPUState := { s with reg := reg2 }
  let pc2 ← incrementPC 3 s1.pc
  .ok { s1 with pc := pc2 }

/-- `CPU.hlt()`: `self.running = False`, then `incrementPC(1)`. -/
def hlt (s : CPUState) : Except Err CPUState := do
  let s1 : CPUState := { s with running := false }
  let pc2 ← incrementPC 1 s1.pc
  .ok { s1 with pc := pc2 }

/-- `CPU.push(register)`: decrement `self.reg[SP]`; re-read the register
number from `self.ram[self.pc + 1]` (the `register` parameter is ignored by
the source); write that register's value to `self.ram[self.reg[SP]]`; then
`incrementPC(2)`. -/
def push (_register : Int) (s : CPUState) : Except Err CPUState := do
  let s1 : CPUState := { s with reg := updF s.reg SP (s.reg SP - 1) }
  let regNum ← ram_read s1.ram (s1.pc + 1)
  let i ← pyIdx 8 regNum
  let value := s1.reg i
  let j ← pyIdx 256 (s1.reg SP)
  let s2 : CPUState := { s1 with ram := updF s1.ram j value }
  let pc2 ← incrementPC 2 s2.pc
  .ok { s2 with pc := pc2 }

/-- `CPU.pop(register)`: read the register number from
`self.ram[self.pc + 1]` (the `register` parameter is ignored by the
source); copy `self.ram[self.reg[SP]]` into that register; increment
`self.reg[SP]`; then `incrementPC(2)`. -/
def pop (_register : Int) (s : CPUState) : Except Err CPUState := do
  let regNum ← ram_read s.ram (s.pc + 1)
  let i ← pyIdx 8 regNum
  let j ← pyIdx 256 (s.reg SP)
  let value := s.ram j
  let s1 : CPUState := { s with reg := updF s.reg i value }
  let s2 : CPUState := { s1 with reg := updF s1.reg SP (s1.reg SP + 1) }
  let pc2 ← incrementPC 2 s2.pc
  .ok { s2 with pc := pc2 }

/-- `CPU.call(register)`: push `self.pc + 2`; set the PC to the value of
the register named by `self.ram[self.pc + 1]` (the `register` parameter is
ignored by the source); no generic PC increment. -/
def call (_register : Int) (s : CPUState) : Except Err CPUState := do
  let retAddr := s.pc + 2
  let s1 : CPUState := { s with reg := updF s.reg SP (s.reg SP - 1) }
  let j ← pyIdx 256 (s1.reg SP)
  let s2 : CPUState := { s1 with ram := updF s1.ram j retAddr }
  let regNum ← ram_read s2.ram (s2.pc + 1)
  let i ← pyIdx 8 regNum
  .ok { s2 with pc := s2.reg i }

/-- `CPU.ret()`: pop the return address off the stack into the PC and
increment `self.reg[SP]`. -/
def ret (s : CPUState) : Except Err CPUState := do
  let j ← pyIdx 256 (s.reg SP)
  let retAddr := s.ram j
  let s1 : CPUState := { s with reg := updF s.reg SP (s.reg SP + 1) }
  .ok { s1 with pc := retAddr }

/-- The nine handlers installed in `self.branchtable` by the constructor. -/
inductive Handler : Type
  | ldiH | prnH | addH | mulH | hltH | pushH | popH | callH | retH
  deriving DecidableEq, Repr

/-- The dispatch table built by `CPU.__init__`: a finite map from opcode
value to handler, here an if-chain over the nine distinct keys. -/
def branchtable (ir : Int) : Option Handler :=
  if ir = OP_LDI then some .ldiH
  else if ir = OP_PRN then some .prnH
  else if ir = OP_ADD then some .addH
  else if ir = OP_MUL then some .mulH
  else if ir = OP_HLT then some .hltH
  else if ir = OP_PUSH then some .pushH
  else if ir = OP_POP then some .popH
  else if ir = OP_CALL then some .callH
  else if ir = OP_RET then some .retH
  else none

/-- Number of (non-self) parameters of each handler method; a Python call
with a different number of positional arguments raises TypeError. -/
def arity : Handler → Nat
  | .ldiH => 2
  | .prnH => 1
  | .addH => 2
  | .mulH => 2
  | .hltH => 0
  | .pushH => 1
  | .popH => 1
  | .callH => 1
  | .retH => 0

/-- Invoke a handler, passing the fetched operand bytes positionally;
handlers of smaller arity ignore the surplus operands, mirroring the three
call shapes of the run loop. -/
def execHandler (h : Handler) (opa opb : Int) (s : CPUState) : Except Err CPUState :=
  match h with
  | .ldiH => ldi opa opb s
  | .prnH => prn opa s
  | .addH => add opa opb s
  | .mulH => mul opa opb s
  | .hltH => hlt s
  | .pushH => push opa s
  | .popH => pop opa s
  | .callH => call opa s
  | .retH => ret s

/-- Models `num_ops = "{0:08b}".format(ir)[0:2]` compared against the
string patterns of the run loop: for `0 ≤ ir < 256` the two leading
characters of the zero-padded 8-character binary rendering have the
numeric value `ir / 64`; for `ir ≥ 256` the rendering is the full binary
expansion (longer than 8 characters, no padding), whose two leading digits
are `ir >>> (bitlength - 2)`; for `ir < 0` the rendering starts with a
minus sign, so the slice matches none of `00`, `01`, `10`, `11`, encoded
here as `none`. -/
def topTwoBits (ir : Int) : Option Nat :=
  if ir < 0 then none
  else if ir.toNat < 256 then some (ir.toNat / 64)
  else some (ir.toNat >>> (ir.toNat.log2 - 1))

/-- One iteration of the body of `CPU.run`: fetch the instruction byte and
both operand bytes unconditionally, classify the top two bits, and
dispatch through the branchtable with 0, 1 or 2 operands; a byte whose
class matches none of `00`, `01`, `10` falls through every branch, leaving
the state untouched. -/
def stepCPU (s : CPUState) : Except Err CPUState := do
  let ir ← ram_read s.ram s.pc
  let opa ← ram_read s.ram (s.pc + 1)
  let opb ← ram_read s.ram (s.pc + 2)
  match topTwoBits ir with
  | some 0 =>
    match branchtable ir with
    | some h => if arity h = 0 then execHandler h opa opb s else .error .typeError
    | none => .error (.keyError ir)
  | some 1 =>
    match branchtable ir with
    | some h => if arity h = 1 then execHandler h opa opb s else .error .typeError
    | none => .error (.keyError ir)
  | some 2 =>
    match branchtable ir with
    | some h => if arity h = 2 then execHandler h opa opb s else .error .typeError
    | none => .error (.keyError ir)
  | _ => .ok s

/-- `CPU.run`: `while self.running:` iterate the loop body; `fuel` bounds
the number of iterations considered (the source loop has no cap and can
run forever). -/
def runCPU : Nat → CPUState → Except Err CPUState
  | 0, s => .ok s
  | n + 1, s =>
    if s.running then do
      let s1 ← stepCPU s
      runCPU n s1
    else .ok s

/-- `CPU.__init__`: zeroed memory, zeroed registers except `reg[SP] = 0xF4`,
`running = True`, `pc = 0`, nothing printed yet. -/
def initCPU : CPUState where
  ram := fun _ => 0
  reg := fun i => if i = SP then 0xf4 else 0
  pc := 0
  running := true
  output := []

/-- A freshly constructed CPU whose memory holds the given byte sequence
starting at address 0 (the loader writes consecutive cells from 0). -/
def loadProgram (prog : List Int) : CPUState :=
  { initCPU with
    ram := fun a => if h : (a : Nat) < prog.length then prog.get ⟨a, h⟩ else 0 }

/-- `CPU.alu(op, reg_a, reg_b)`, the full method: an if-chain on the
operation name; ADD, SUB, MUL and DIV mutate `self.reg[reg_a]` from
`self.reg[reg_b]`, anything else raises
`Exception("Unsupported ALU operation")`.  The register file is taken
rational-valued so that the "DIV" branch, Python real division, is exact
(Python raises ZeroDivisionError when the divisor is zero); the method
never touches the PC, which accordingly does not appear in its type. -/
def alu (op : String) (reg_a reg_b : Int) (reg : Fin 8 → ℚ) : Except Err (Fin 8 → ℚ) :=
  if op = "ADD" then do
    let ia ← pyIdx 8 reg_a
    let ib ← pyIdx 8 reg_b
    .ok (updF reg ia (reg ia + reg ib))
  else if op = "SUB" then do
    let ia ← pyIdx 8 reg_a
    let ib ← pyIdx 8 reg_b
    .ok (updF reg ia (reg ia - reg ib))
  else if op = "MUL" then do
    let ia ← pyIdx 8 reg_a
    let ib ← pyIdx 8 reg_b
    .ok (updF reg ia (reg ia * reg ib))
  else if op = "DIV" then do
    let ia ← pyIdx 8 reg_a
    let ib ← pyIdx 8 reg_b
    if reg ib = 0 then .error .zeroDivisionError
    else .ok (updF reg ia (reg ia / reg ib))
  else .error .unsupportedALUOperation

/-- Embed an integer register file into a rational one. -/
def castRegs (r : Fin 8 → Int) : Fin 8 → ℚ := fun j => (r j : ℚ)

/-- Modelled from the spec: the documented operand count of each
instruction in the dispatch table of section 4.5 (LDI 2, PRN 1, ADD 2,
MUL 2, HLT 0, PUSH 1, POP 1, CALL 1, RET 0). -/
def specOperandCount : Handler → Nat
  | .ldiH => 2
  | .prnH => 1
  | .addH => 2
  | .mulH => 2
  | .hltH => 0
  | .pushH => 1
  | .popH => 1
  | .callH => 1
  | .retH => 0

/-- The program of the concrete scenario:
`LDI r0,8; LDI r1,9; ADD r0,r1; PRN r0; HLT`. -/
def c1Prog : List Int :=
  [0b10000010, 0, 8, 0b10000010, 1, 9, 0b10100000, 0, 1, 0b01000111, 0, 0b00000001]

/-- Fresh CPU loaded with the concrete scenario program. -/
def c1Init : CPUState := loadProgram c1Prog

/-- The state the concrete scenario reaches after its five instructions. -/
def c1Final : CPUState :=
  match runCPU 5 c1Init with
  | .ok s => s
  | .error _ => c1Init

/-- Fresh CPU loaded with the single byte `HLT`. -/
def c7Init : CPUState := loadProgram [0b00000001]

/-- The state the HLT-only program reaches after one loop iteration. -/
def c7Final : CPUState :=
  match runCPU 1 c7Init with
  | .ok s => s
  | .error _ => c7Init

/-- `LDI r0,200; LDI r1,200; ADD r0,r1; HLT`. -/
def c8AddProg : CPUState :=
  loadProgram [0b10000010, 0, 200, 0b10000010, 1, 200, 0b10100000, 0, 1, 0b00000001]

/-- `LDI r0,200; LDI r1,200; MUL r0,r1; HLT`. -/
def c8MulProg : CPUState :=
  loadProgram [0b10000010, 0, 200, 0b10000010, 1, 200, 0b10100010, 0, 1, 0b00000001]

/-- Final state of the 200+200 overflow program. -/
def c8AddFinal : CPUState :=
  match runCPU 4 c8AddProg with
  | .ok s => s
  | .error _ => c8AddProg

/-- Final state of the 200*200 overflow program. -/
def c8MulFinal : CPUState :=
  match runCPU 4 c8MulProg with
  | .ok s => s
  | .error _ => c8MulProg

/-- Fresh CPU whose first byte, `0b01000000`, is a class-01 opcode that is
not a key of the branchtable. -/
def c4KeyState : CPUState := loadProgram [0b01000000]

/-- Fresh CPU whose first byte, `0b11000000`, has top bits `11` and is not
a key of the branchtable. -/
def c4NoState : CPUState := loadProgram [0b11000000]

/-- Fresh CPU whose first byte, `0b11111111`, has top bits `11`. -/
def c6State : CPUState := loadProgram [0b11111111]

/-- Fresh CPU loaded with `LDI r0,8` for the dispatch witness. -/
def c5State : CPUState := loadProgram [0b10000010, 0, 8]

/-- Fresh CPU loaded with `PUSH r3; POP r3`. -/
def c2State : CPUState := loadProgram [0b01000101, 3, 0b01000110, 3]

/-- The state after the PUSH of the push/pop witness program. -/
def c2Mid : CPUState :=
  match stepCPU c2State with
  | .ok s => s
  | .error _ => c2State

/-- The state after the POP of the push/pop witness program. -/
def c2End : CPUState :=
  match stepCPU c2Mid with
  | .ok s => s
  | .error _ => c2Mid

/-- Fresh CPU with `CALL r0` at address 0, a `RET` byte at address 10, and
register 0 holding 10. -/
def c3State : CPUState :=
  { loadProgram [0b01010000, 0, 0, 0, 0, 0, 0, 0, 0, 0, 0b00010001] with
    reg := fun i => if i = SP then 0xf4 else if i = 0 then 10 else 0 }

/-- The state after the CALL of the call/ret witness program. -/
def c3Mid : CPUState :=
  match stepCPU c3State with
  | .ok s => s
  | .error _ => c3State

/-- The state after the RET of the call/ret witness program. -/
def c3End : CPUState :=
  match stepCPU c3Mid with
  | .ok s => s
  | .error _ => c3Mid

/-! ### Helper lemmas -/

/-- Bind of a success in the `Except Err` monad. -/
@[simp] theorem ebind_ok {α β : Type} (a : α) (f : α → Except Err β) :
    (Except.ok a : Except Err α) >>= f = f a := rfl

/-- Bind of a failure in the `Except Err` monad. -/
@[simp] theorem ebind_err {α β : Type} (e : Err) (f : α → Except Err β) :
    (Except.error e : Except Err α) >>= f = .error e := rfl

/-- Indexing with an in-range register or memory index succeeds. -/
@[simp] theorem pyIdx_coe {n : Nat} (r : Fin n) : pyIdx n ((r : Nat) : Int) = .ok r := by
  have h : 0 ≤ ((r : Nat) : Int) ∧ ((r : Nat) : Int) < (n : Int) :=
    ⟨Int.natCast_nonneg _, by exact_mod_cast r.isLt⟩
  rw [pyIdx, dif_pos h]
  congr 1

/-- The guard of `incrementPC` holds for every non-negative increment:
it parses as `i >= (1 & i) and (1 & i) <= 3`, and for `0 ≤ i` the low bit
`1 & i` is at most both `i` and `3`. -/
theorem incrementPC_of_nonneg (i pc : Int) (h : 0 ≤ i) :
    incrementPC i pc = .ok (pc + i) := by
  obtain ⟨n, rfl⟩ := Int.eq_ofNat_of_zero_le h
  have hland : Int.land 1 (n : Int) = ((1 &&& n : Nat) : Int) := rfl
  have ha : Int.land 1 (n : Int) ≤ (n : Int) := by
    rw [hland]; exact_mod_cast Nat.and_le_right
  have hb : Int.land 1 (n : Int) ≤ 3 := by
    rw [hland]
    have h1 : (1 &&& n : Nat) ≤ 1 := Nat.and_le_left
    exact_mod_cast h1.trans (by norm_num)
  rw [incrementPC, if_pos ⟨ha, hb⟩]

/-- `incrementPC(1)` advances the PC by 1. -/
@[simp] theorem incrementPC_one (pc : Int) : incrementPC 1 pc = .ok (pc + 1) :=
  incrementPC_of_nonneg 1 pc (by norm_num)

/-- `incrementPC(2)` advances the PC by 2. -/
@[simp] theorem incrementPC_two (pc : Int) : incrementPC 2 pc = .ok (pc + 2) :=
  incrementPC_of_nonneg 2 pc (by norm_num)

/-- `incrementPC(3)` advances the PC by 3. -/
@[simp] theorem incrementPC_three (pc : Int) : incrementPC 3 pc = .ok (pc + 3) :=
  incrementPC_of_nonneg 3 pc (by norm_num)

/-- One loop iteration, given the three fetched bytes and a branchtable hit
whose operand-count class matches the handler's arity: the loop invokes
that handler on the fetched operands. -/
theorem stepCPU_of_fetch (s : CPUState) (ir opa opb : Int) (h : Handler)
    (hir : ram_read s.ram s.pc = .ok ir)
    (hopa : ram_read s.ram (s.pc + 1) = .ok opa)
    (hopb : ram_read s.ram (s.pc + 2) = .ok opb)
    (hb : branchtable ir = some h)
    (hc : topTwoBits ir = some (arity h)) :
    stepCPU s = execHandler h opa opb s := by
  rw [stepCPU, hir, ebind_ok, hopa, ebind_ok, hopb, ebind_ok]
  cases h <;> rw [hc] <;> rw [hb] <;> rfl

/-- One loop iteration fails with the IndexError of a failing operand-one
fetch. -/
theorem stepCPU_err_opa (s : CPUState) (ir : Int) (e : Err)
    (hir : ram_read s.ram s.pc = .ok ir)
    (hopa : ram_read s.ram (s.pc + 1) = .error e) :
    stepCPU s = .error e := by
  rw [stepCPU, hir, ebind_ok, hopa, ebind_err]

/-- One loop iteration fails with the IndexError of a failing operand-two
fetch. -/
theorem stepCPU_err_opb (s : CPUState) (ir opa : Int) (e : Err)
    (hir : ram_read s.ram s.pc = .ok ir)
    (hopa : ram_read s.ram (s.pc + 1) = .ok opa)
    (hopb : ram_read s.ram (s.pc + 2) = .error e) :
    stepCPU s = .error e := by
  rw [stepCPU, hir, ebind_ok, hopa, ebind_ok, hopb, ebind_err]

/-- A halted machine is left untouched by the run loop. -/
theorem runCPU_halted (n : Nat) (s : CPUState) (h : s.running = false) :
    runCPU n s = .ok s := by
  cases n with
  | zero => rfl
  | succ n => rw [runCPU, h]; rfl

/-- Once the loop has reached a halted state, any amount of extra fuel
returns the same state: the while condition is false. -/
theorem runCPU_fix (k n : Nat) (s t : CPUState)
    (h : runCPU k s = .ok t) (ht : t.running = false) :
    runCPU (k + n) s = .ok t := by
  induction k generalizing s with
  | zero =>
    rw [runCPU] at h
    obtain rfl : s = t := Except.ok.inj h
    rw [Nat.zero_add]
    exact runCPU_halted n s ht
  | succ k ih =>
    rw [show k + 1 + n = (k + n) + 1 by omega]
    rw [runCPU] at h ⊢
    by_cases hr : s.running = true
    · rw [if_pos hr] at h ⊢
      cases hs : stepCPU s with
      | error e =>
        rw [hs, ebind_err] at h
        exact Except.noConfusion h
      | ok s1 =>
        rw [hs, ebind_ok] at h
        rw [ebind_ok]
        exact ih s1 h
    · rw [if_neg hr] at h ⊢
      obtain rfl : s = t := Except.ok.inj h
      rfl

/-- The integer form of the ALU's ADD agrees with `CPU.alu` on integer
register files, certifying the inlining used by the `add` handler. -/
theorem alu_add_int_agree (a b : Int) (r : Fin 8 → Int) :
    alu ("ADD") a b (castRegs r) = Except.map castRegs (aluAddInt a b r) := by
  rw [alu, if_pos rfl, aluAddInt]
  cases h1 : pyIdx 8 a with
  | error e => rfl
  | ok ia =>
    cases h2 : pyIdx 8 b with
    | error e => rfl
    | ok ib =>
      simp only [ebind_ok, Except.map]
      congr 1
      funext jj
      simp only [updF, castRegs]
      split
      · push_cast
        rfl
      · rfl

/-- The integer form of the ALU's MUL agrees with `CPU.alu` on integer
register files, certifying the inlining used by the `mul` handler. -/
theorem alu_mul_int_agree (a b : Int) (r : Fin 8 → Int) :
    alu ("MUL") a b (castRegs r) = Except.map castRegs (aluMulInt a b r) := by
  rw [alu, if_neg (by decide), if_neg (by decide), if_pos rfl, aluMulInt]
  cases h1 : pyIdx 8 a with
  | error e => rfl
  | ok ia =>
    cases h2 : pyIdx 8 b with
    | error e => rfl
    | ok ib =>
      simp only [ebind_ok, Except.map]
      congr 1
      funext jj
      simp only [updF, castRegs]
      split
      · push_cast
        rfl
      · rfl

/-- What a successful PUSH does: it decrements the stack pointer, stores
the named register's value (read after the decrement) at the new
stack-pointer address, and advances the PC by 2. -/
theorem push_ok (s t : CPUState) (r : Fin 8) (opa : Int)
    (hop : ram_read s.ram (s.pc + 1) = .ok ((r : Nat) : Int))
    (h : push opa s = .ok t) :
    ∃ j : Fin 256, pyIdx 256 (s.reg SP - 1) = .ok j ∧
      t = { s with reg := updF s.reg SP (s.reg SP - 1),
                   ram := updF s.ram j (updF s.reg SP (s.reg SP - 1) r),
                   pc := s.pc + 2 } := by
  simp only [push, hop, ebind_ok, pyIdx_coe, updF, if_pos] at h
  cases hj : pyIdx 256 (s.reg SP - 1) with
  | error e => rw [hj, ebind_err] at h; exact Except.noConfusion h
  | ok j =>
    rw [hj, ebind_ok, incrementPC_two, ebind_ok] at h
    refine ⟨j, rfl, ?_⟩
    obtain rfl := Except.ok.inj h
    simp [updF]

/-- What a successful POP does: it copies the cell at the stack-pointer
address into the named register, then increments the stack pointer and
advances the PC by 2. -/
theorem pop_ok (s t : CPUState) (r : Fin 8) (opa : Int)
    (hop : ram_read s.ram (s.pc + 1) = .ok ((r : Nat) : Int))
    (h : pop opa s = .ok t) :
    ∃ j : Fin 256, pyIdx 256 (s.reg SP) = .ok j ∧
      t = { s with reg := updF (updF s.reg r (s.ram j)) SP
                            (updF s.reg r (s.ram j) SP + 1),
                   pc := s.pc + 2 } := by
  simp only [pop, hop, ebind_ok, pyIdx_coe] at h
  cases hj : pyIdx 256 (s.reg SP) with
  | error e => rw [hj, ebind_err] at h; exact Except.noConfusion h
  | ok j =>
    rw [hj, ebind_ok, incrementPC_two, ebind_ok] at h
    refine ⟨j, rfl, ?_⟩
    obtain rfl := Except.ok.inj h
    simp [updF]

/-- What a successful CALL does: it decrements the stack pointer, stores
the return address `pc + 2` at the new stack-pointer address, and jumps to
the value of the register named by the re-read operand byte. -/
theorem call_ok (s t : CPUState) (opa : Int)
    (h : call opa s = .ok t) :
    ∃ (j : Fin 256) (rn : Int) (i : Fin 8),
      pyIdx 256 (s.reg SP - 1) = .ok j ∧
      ram_read (updF s.ram j (s.pc + 2)) (s.pc + 1) = .ok rn ∧
      pyIdx 8 rn = .ok i ∧
      t = { s with reg := updF s.reg SP (s.reg SP - 1),
                   ram := updF s.ram j (s.pc + 2),
                   pc := updF s.reg SP (s.reg SP - 1) i } := by
  simp only [call, ebind_ok, updF, if_pos] at h
  cases hj : pyIdx 256 (s.reg SP - 1) with
  | error e => rw [hj, ebind_err] at h; exact Except.noConfusion h
  | ok j =>
    rw [hj, ebind_ok] at h
    cases hrn : ram_read (updF s.ram j (s.pc + 2)) (s.pc + 1) with
    | error e =>
      rw [hrn, ebind_err] at h
      exact Except.noConfusion h
    | ok rn =>
      rw [hrn, ebind_ok] at h
      cases hi : pyIdx 8 rn with
      | error e => rw [hi, ebind_err] at h; exact Except.noConfusion h
      | ok i =>
        rw [hi, ebind_ok] at h
        refine ⟨j, rn, i, rfl, hrn, hi, ?_⟩
        obtain rfl := Except.ok.inj h
        simp [updF]

/-- What a successful RET does: it loads the PC from the cell at the
stack-pointer address and increments the stack pointer. -/
theorem ret_ok (s t : CPUState)
    (h : ret s = .ok t) :
    ∃ j : Fin 256, pyIdx 256 (s.reg SP) = .ok j ∧
      t = { s with reg := updF s.reg SP (s.reg SP + 1), pc := s.ram j } := by
  simp only [ret, ebind_ok] at h
  cases hj : pyIdx 256 (s.reg SP) with
  | error e => rw [hj, ebind_err] at h; exact Except.noConfusion h
  | ok j =>
    rw [hj, ebind_ok] at h
    refine ⟨j, rfl, ?_⟩
    obtain rfl := Except.ok.inj h
    rfl

/-! ### The claims -/

/-- C10: the guard in `incrementPC` never fires for any non-negative
argument: because the condition parses as `i >= (1 & i) <= 3`,
`incrementPC(i)` adds `i` to the PC and raises no exception for every
integer `i ≥ 0` (including `i = 0` and `i > 3`), so the
"Unsupported i value" branch is unreachable from the instruction handlers,
which pass only 1, 2 or 3. -/
theorem claim_c10_incrementPC_guard (i pc : Int) (h : 0 ≤ i) :
    incrementPC i pc = .ok (pc + i) :=
  incrementPC_of_nonneg i pc h

/-- Witness for C10 at the concrete increment 4 (a value above 3, where
the guard still does not fire). -/
theorem claim_c10_witness : incrementPC 4 10 = .ok 14 :=
  claim_c10_incrementPC_guard 4 10 (by norm_num)

/-- C1: from a freshly constructed CPU whose memory holds
`LDI r0,8; LDI r1,9; ADD r0,r1; PRN r0; HLT` at address 0, the execution
loop (here with any fuel of at least the five iterations the program
takes) emits exactly the one printed value 17, and afterwards register 0
is 17, register 1 is 9, and the running flag is false. -/
theorem claim_c1_concrete_scenario :
    (∀ n : Nat, runCPU (5 + n) c1Init = .ok c1Final) ∧
      c1Final.output = [17] ∧ c1Final.reg 0 = 17 ∧ c1Final.reg 1 = 9 ∧
      c1Final.running = false := by
  refine ⟨fun n => runCPU_fix 5 n c1Init c1Final rfl (by decide),
    by decide, by decide, by decide, by decide⟩

/-- C7: a freshly constructed CPU whose loaded program is the single HLT
byte halts after exactly one loop iteration (any fuel of at least one
iteration yields the same final state, whose running flag is false), with
every register, including the stack pointer, and every memory cell equal
to its initial value. -/
theorem claim_c7_hlt_only :
    (∀ n : Nat, runCPU (1 + n) c7Init = .ok c7Final) ∧
      c7Final.running = false ∧
      (∀ i : Fin 8, c7Final.reg i = c7Init.reg i) ∧
      (∀ a : Fin 256, c7Final.ram a = c7Init.ram a) := by
  refine ⟨fun n => runCPU_fix 1 n c7Init c7Final rfl (by decide),
    by decide, by decide, by decide⟩

/-- C8: ALU results are not masked to 8 bits: with two registers each
holding 200, executing the ADD instruction leaves the destination register
holding 400 and executing the MUL instruction leaves it holding 40000,
both greater than 255. -/
theorem claim_c8_no_masking :
    runCPU 4 c8AddProg = .ok c8AddFinal ∧ c8AddFinal.reg 0 = 400 ∧
      runCPU 4 c8MulProg = .ok c8MulFinal ∧ c8MulFinal.reg 0 = 40000 ∧
      255 < c8AddFinal.reg 0 ∧ 255 < c8MulFinal.reg 0 :=
  ⟨rfl, by decide, rfl, by decide, by decide, by decide⟩

/-- C6: one iteration of the execution loop on a byte whose top two bits
are `11` dispatches no handler and leaves the entire machine state
unchanged — PC, registers, memory, running flag and output are those of
the input state. -/
theorem claim_c6_class11_noop (s : CPUState) (ir opa opb : Int)
    (hir : ram_read s.ram s.pc = .ok ir)
    (hopa : ram_read s.ram (s.pc + 1) = .ok opa)
    (hopb : ram_read s.ram (s.pc + 2) = .ok opb)
    (hc : topTwoBits ir = some 3) :
    stepCPU s = .ok s := by
  rw [stepCPU, hir, ebind_ok, hopa, ebind_ok, hopb, ebind_ok, hc]

/-- Witness for C6 at the byte `0b11111111` in a fresh machine. -/
theorem claim_c6_witness : stepCPU c6State = .ok c6State :=
  claim_c6_class11_noop c6State 0b11111111 0 0 rfl rfl rfl rfl

/-- Counterexample to C4 as stated: the byte `0b11000000` is not a key of
the instruction table, yet one loop iteration fetching it raises nothing
at all — it returns the state unchanged — rather than an IllegalOpcode
failure. -/
theorem claim_c4_counterexample :
    branchtable 0b11000000 = none ∧ stepCPU c4NoState = .ok c4NoState :=
  ⟨rfl, rfl⟩

/-- C4 as amended: for every opcode byte that is not a key of the
instruction table and whose top two bits are `00`, `01` or `10` (i.e. the
byte is below 192), one loop iteration raises the uncaught lookup failure
KeyError on that byte; a non-key byte with top bits `11` (at least 192)
instead dispatches nothing and leaves the state unchanged. -/
theorem claim_c4_missing_opcode (s : CPUState) (ir opa opb : Int)
    (hir : ram_read s.ram s.pc = .ok ir)
    (hopa : ram_read s.ram (s.pc + 1) = .ok opa)
    (hopb : ram_read s.ram (s.pc + 2) = .ok opb)
    (hmiss : branchtable ir = none)
    (h0 : 0 ≤ ir) (h256 : ir < 256) :
    (ir < 192 → stepCPU s = .error (.keyError ir)) ∧
      (192 ≤ ir → stepCPU s = .ok s) := by
  have hc : topTwoBits ir = some (ir.toNat / 64) := by
    rw [topTwoBits, if_neg (by omega), if_pos (by omega)]
  rw [stepCPU, hir, ebind_ok, hopa, ebind_ok, hopb, ebind_ok]
  constructor
  · intro hlt192
    have h012 : ir.toNat / 64 = 0 ∨ ir.toNat / 64 = 1 ∨ ir.toNat / 64 = 2 := by omega
    rcases h012 with h64 | h64 | h64 <;> rw [hc, h64] <;> rw [hmiss]
  · intro hge192
    have h3 : ir.toNat / 64 = 3 := by omega
    rw [hc, h3]

/-- Witness for C4 (amended) at the non-key class-01 byte `0b01000000`. -/
theorem claim_c4_witness : stepCPU c4KeyState = .error (.keyError 0b01000000) :=
  (claim_c4_missing_opcode c4KeyState 0b01000000 0 0 rfl rfl rfl rfl
    (by norm_num) (by norm_num)).1 (by norm_num)

/-- C2: executing PUSH of register `r` immediately followed by POP of the
same register (two consecutive loop iterations that fetch `PUSH`/`r` and
then `POP`/`r`) leaves register `r` with its value from before the PUSH
and leaves the stack-pointer register, register 7, unchanged. -/
theorem claim_c2_push_pop (s s1 s2 : CPUState) (r : Fin 8)
    (hir1 : ram_read s.ram s.pc = .ok OP_PUSH)
    (hop1 : ram_read s.ram (s.pc + 1) = .ok ((r : Nat) : Int))
    (h1 : stepCPU s = .ok s1)
    (hir2 : ram_read s1.ram s1.pc = .ok OP_POP)
    (hop2 : ram_read s1.ram (s1.pc + 1) = .ok ((r : Nat) : Int))
    (h2 : stepCPU s1 = .ok s2) :
    s2.reg r = s.reg r ∧ s2.reg SP = s.reg SP := by
  cases hopb1 : ram_read s.ram (s.pc + 2) with
  | error e =>
    rw [stepCPU_err_opb s OP_PUSH _ e hir1 hop1 hopb1] at h1
    exact Except.noConfusion h1
  | ok opb1 =>
    rw [stepCPU_of_fetch s OP_PUSH _ opb1 .pushH hir1 hop1 hopb1 rfl rfl] at h1
    obtain ⟨j, hj, hE1⟩ := push_ok s s1 r ((r : Nat) : Int) hop1 h1
    cases hopb2 : ram_read s1.ram (s1.pc + 2) with
    | error e =>
      rw [stepCPU_err_opb s1 OP_POP _ e hir2 hop2 hopb2] at h2
      exact Except.noConfusion h2
    | ok opb2 =>
      rw [stepCPU_of_fetch s1 OP_POP _ opb2 .popH hir2 hop2 hopb2 rfl rfl] at h2
      obtain ⟨j2, hj2, hE2⟩ := pop_ok s1 s2 r ((r : Nat) : Int) hop2 h2
      rw [hE1] at hj2
      simp only [updF, if_pos] at hj2
      rw [hj] at hj2
      obtain rfl := Except.ok.inj hj2
      subst hE2
      rw [hE1]
      by_cases hr : r = SP
      · subst hr
        constructor <;> simp [updF]
      · constructor <;> simp [updF, hr] <;> omega

/-- Witness for C2: `PUSH r3; POP r3` on a fresh machine restores register
3 and the stack pointer. -/
theorem claim_c2_witness :
    c2End.reg 3 = c2State.reg 3 ∧ c2End.reg SP = c2State.reg SP :=
  claim_c2_push_pop c2State c2Mid c2End 3 rfl rfl rfl rfl rfl rfl

/-- C3: executing a CALL whose register operand takes the machine to a RET
instruction, then executing that RET, leaves the PC at the pre-CALL PC
plus 2 — the instruction directly after the CALL's operand byte — and
restores the stack-pointer register to its pre-CALL value. -/
theorem claim_c3_call_ret (s s1 s2 : CPUState)
    (hir1 : ram_read s.ram s.pc = .ok OP_CALL)
    (h1 : stepCPU s = .ok s1)
    (hir2 : ram_read s1.ram s1.pc = .ok OP_RET)
    (h2 : stepCPU s1 = .ok s2) :
    s2.pc = s.pc + 2 ∧ s2.reg SP = s.reg SP := by
  cases hopa1 : ram_read s.ram (s.pc + 1) with
  | error e =>
    rw [stepCPU_err_opa s OP_CALL e hir1 hopa1] at h1
    exact Except.noConfusion h1
  | ok opa1 =>
  cases hopb1 : ram_read s.ram (s.pc + 2) with
  | error e =>
    rw [stepCPU_err_opb s OP_CALL opa1 e hir1 hopa1 hopb1] at h1
    exact Except.noConfusion h1
  | ok opb1 =>
  rw [stepCPU_of_fetch s OP_CALL opa1 opb1 .callH hir1 hopa1 hopb1 rfl rfl] at h1
  obtain ⟨j, rn, i, hj, hrn, hi, hE1⟩ := call_ok s s1 opa1 h1
  cases hopa2 : ram_read s1.ram (s1.pc + 1) with
  | error e =>
    rw [stepCPU_err_opa s1 OP_RET e hir2 hopa2] at h2
    exact Except.noConfusion h2
  | ok opa2 =>
  cases hopb2 : ram_read s1.ram (s1.pc + 2) with
  | error e =>
    rw [stepCPU_err_opb s1 OP_RET opa2 e hir2 hopa2 hopb2] at h2
    exact Except.noConfusion h2
  | ok opb2 =>
  rw [stepCPU_of_fetch s1 OP_RET opa2 opb2 .retH hir2 hopa2 hopb2 rfl rfl] at h2
  obtain ⟨j2, hj2, hE2⟩ := ret_ok s1 s2 h2
  rw [hE1] at hj2
  simp only [updF, if_pos] at hj2
  rw [hj] at hj2
  obtain rfl := Except.ok.inj hj2
  subst hE2
  rw [hE1]
  constructor
  · simp [updF]
  · simp [updF]

/-- Witness for C3: `CALL r0` with register 0 pointing at a `RET` byte at
address 10 returns with the PC at 2 and the stack pointer restored. -/
theorem claim_c3_witness :
    c3End.pc = c3State.pc + 2 ∧ c3End.reg SP = c3State.reg SP :=
  claim_c3_call_ret c3State c3Mid c3End rfl rfl rfl rfl

/-- C5: every opcode registered in the instruction table classifies, by
its two most-significant bits, to exactly the documented operand count of
its instruction (which also equals the handler's parameter count), and one
loop iteration fetching it invokes its handler on the fetched operand
bytes. -/
theorem claim_c5_operand_classes (ir : Int) (h : Handler)
    (hb : branchtable ir = some h) :
    topTwoBits ir = some (specOperandCount h) ∧ arity h = specOperandCount h ∧
    ∀ (s : CPUState) (opa opb : Int),
      ram_read s.ram s.pc = .ok ir →
      ram_read s.ram (s.pc + 1) = .ok opa →
      ram_read s.ram (s.pc + 2) = .ok opb →
      stepCPU s = execHandler h opa opb s := by
  unfold branchtable at hb
  split_ifs at hb with e1 e2 e3 e4 e5 e6 e7 e8 e9
  all_goals first
  | exact Option.noConfusion hb
  | (cases hb
     subst_vars
     refine ⟨by decide, by decide, ?_⟩
     intro s opa opb f1 f2 f3
     exact stepCPU_of_fetch s _ opa opb _ f1 f2 f3 (by decide) (by decide))

/-- Witness for C5 at the LDI opcode: its top two bits give the documented
two operands, and a fresh machine holding `LDI r0,8` dispatches the LDI
handler on the two fetched operand bytes. -/
theorem claim_c5_witness :
    topTwoBits OP_LDI = some (specOperandCount .ldiH) ∧
      arity .ldiH = specOperandCount .ldiH ∧
      stepCPU c5State = execHandler .ldiH 0 8 c5State := by
  obtain ⟨a, b, c⟩ := claim_c5_operand_classes OP_LDI .ldiH rfl
  exact ⟨a, b, c c5State 0 8 rfl rfl rfl⟩

/-- Counterexample to C9 as stated: DIV is one of the four supported
operation names, yet invoking the ALU with it while the source register
holds zero raises ZeroDivisionError rather than raising nothing. -/
theorem claim_c9_counterexample :
    alu ("DIV") 0 1 (fun _ => 0) = .error .zeroDivisionError := by
  simp [alu, pyIdx]

/-- C9 as amended: for every operation name outside ADD/SUB/MUL/DIV the
ALU fails with the unsupported-operation condition before touching any
register; for ADD, SUB and MUL on register indices 0–7 it raises nothing
and modifies no register other than the destination; DIV raises
ZeroDivisionError exactly when the source register holds zero and
otherwise raises nothing, also modifying only the destination.  The ALU
acts on the register file alone, so it never modifies the PC. -/
theorem claim_c9_alu (op : String) (ra rb : Fin 8) (reg : Fin 8 → ℚ) :
    (op ≠ "ADD" → op ≠ "SUB" → op ≠ "MUL" → op ≠ "DIV" →
      alu op ((ra : Nat) : Int) ((rb : Nat) : Int) reg = .error .unsupportedALUOperation) ∧
    ((op = "ADD" ∨ op = "SUB" ∨ op = "MUL") →
      ∃ reg2 : Fin 8 → ℚ, alu op ((ra : Nat) : Int) ((rb : Nat) : Int) reg = .ok reg2 ∧
        ∀ jj : Fin 8, jj ≠ ra → reg2 jj = reg jj) ∧
    (op = "DIV" → reg rb = 0 →
      alu op ((ra : Nat) : Int) ((rb : Nat) : Int) reg = .error .zeroDivisionError) ∧
    (op = "DIV" → reg rb ≠ 0 →
      ∃ reg2 : Fin 8 → ℚ, alu op ((ra : Nat) : Int) ((rb : Nat) : Int) reg = .ok reg2 ∧
        ∀ jj : Fin 8, jj ≠ ra → reg2 jj = reg jj) := by
  refine ⟨?_, ?_, ?_, ?_⟩
  · intro h1 h2 h3 h4
    rw [alu, if_neg h1, if_neg h2, if_neg h3, if_neg h4]
  · rintro (rfl | rfl | rfl)
    · refine ⟨updF reg ra (reg ra + reg rb), ?_, ?_⟩
      · simp [alu, pyIdx_coe]
      · intro jj hjj
        simp [updF, hjj]
    · refine ⟨updF reg ra (reg ra - reg rb), ?_, ?_⟩
      · simp [alu, pyIdx_coe]
      · intro jj hjj
        simp [updF, hjj]
    · refine ⟨updF reg ra (reg ra * reg rb), ?_, ?_⟩
      · simp [alu, pyIdx_coe]
      · intro jj hjj
        simp [updF, hjj]
  · rintro rfl h0
    simp [alu, pyIdx_coe, h0]
  · rintro rfl h0
    refine ⟨updF reg ra (reg ra / reg rb), ?_, ?_⟩
    · simp [alu, pyIdx_coe, h0]
    · intro jj hjj
      simp [updF, hjj]

/-- Witness for C9 (amended): a name outside the four supported ones
fails with the unsupported-operation condition. -/
theorem claim_c9_witness :
    alu ("XOR") 0 1 (fun _ => 1) = .error .unsupportedALUOperation :=
  (claim_c9_alu ("XOR") 0 1 (fun _ => 1)).1 (by decide) (by decide) (by decide)
    (by decide)

end LS8
